import Mathlib

/-!
Verification of the SmolNBody simulation core (src/main.rs).

Modelling conventions:

The program computes over IEEE-754 f32 (and f64 for the clock).  We model a
floating-point value as an exact rational extended with the IEEE special
values plus-infinity, minus-infinity and NaN (type SF below).  Arithmetic on
finite values is exact rational arithmetic; the IEEE rules for special values
(x/0 with x positive is +inf, 0/0 is NaN, inf - inf is NaN, NaN absorbs, a
comparison involving NaN is false) are modelled faithfully, since the claims
under scrutiny are about sign, zero and special-value propagation, not about
rounding error.  Rounding and signed zero are not modelled: every denominator
the program divides by is the square of an absolute value, whose IEEE sign
is +0, so collapsing the two zeros onto the single rational 0 with x/0 = +inf
for x > 0 agrees with the program.

Instants (std::time::Instant) are modelled as rational timestamps; the value
of duration_since(t).as_secs_f64() is modelled as max (now - t) 0, matching
the saturating behaviour of Instant::duration_since, and is always a finite
non-negative number, so the clock fields total and delta are plain rationals.

Entities: the program creates its n bodies once at startup, each holding all
five components, and the ECS join iterates the stores in a fixed entity
order, the same order for the outer and the inner join of the gravity stage.
We therefore model the world as a list of bodies in join order; an entity
identifier is the index in that list, and the test ent_one == ent_two is
index equality.
-/

/-- Model of an f32 value: an exact rational, or one of the IEEE special
values plus-infinity, minus-infinity, NaN. -/
inductive SF where
  | fin (q : ℚ)
  | inf
  | ninf
  | nan
deriving DecidableEq

/-- IEEE negation on the model. -/
def SF.neg : SF → SF
  | .fin q => .fin (-q)
  | .inf => .ninf
  | .ninf => .inf
  | .nan => .nan

/-- IEEE addition on the model: NaN absorbs, inf + (-inf) is NaN, finite
addition is exact. -/
def SF.add : SF → SF → SF
  | .nan, _ => .nan
  | _, .nan => .nan
  | .inf, .ninf => .nan
  | .inf, _ => .inf
  | .ninf, .inf => .nan
  | .ninf, _ => .ninf
  | _, .inf => .inf
  | _, .ninf => .ninf
  | .fin a, .fin b => .fin (a + b)

/-- IEEE subtraction: a - b = a + (-b), exactly as in IEEE-754. -/
def SF.sub (a b : SF) : SF := a.add b.neg

/-- IEEE multiplication: NaN absorbs, inf * 0 is NaN, signs as usual,
finite multiplication exact. -/
def SF.mul : SF → SF → SF
  | .nan, _ => .nan
  | _, .nan => .nan
  | .inf, .inf => .inf
  | .inf, .ninf => .ninf
  | .ninf, .inf => .ninf
  | .ninf, .ninf => .inf
  | .inf, .fin q => if q = 0 then .nan else if 0 < q then .inf else .ninf
  | .fin q, .inf => if q = 0 then .nan else if 0 < q then .inf else .ninf
  | .ninf, .fin q => if q = 0 then .nan else if 0 < q then .ninf else .inf
  | .fin q, .ninf => if q = 0 then .nan else if 0 < q then .ninf else .inf
  | .fin a, .fin b => .fin (a * b)

/-- IEEE division: NaN absorbs, inf/inf is NaN, x/0 is +inf for x > 0,
-inf for x < 0, NaN for x = 0 (the program only ever divides by squares of
absolute values, whose IEEE sign is +0, so the unsigned zero of the model
gives the right sign), x/inf is 0, finite division exact. -/
def SF.div : SF → SF → SF
  | .nan, _ => .nan
  | _, .nan => .nan
  | .inf, .inf => .nan
  | .inf, .ninf => .nan
  | .ninf, .inf => .nan
  | .ninf, .ninf => .nan
  | .inf, .fin q => if 0 ≤ q then .inf else .ninf
  | .ninf, .fin q => if 0 ≤ q then .ninf else .inf
  | .fin _, .inf => .fin 0
  | .fin _, .ninf => .fin 0
  | .fin a, .fin b =>
      if b = 0 then (if a = 0 then .nan else if 0 < a then .inf else .ninf)
      else .fin (a / b)

/-- IEEE absolute value: abs of either infinity is +inf, abs NaN is NaN. -/
def SF.abs : SF → SF
  | .fin q => .fin |q|
  | .inf => .inf
  | .ninf => .inf
  | .nan => .nan

/-- IEEE comparison a <= b as a boolean: any comparison involving NaN
is false. -/
def SF.le : SF → SF → Bool
  | .nan, _ => false
  | _, .nan => false
  | .ninf, _ => true
  | _, .ninf => false
  | _, .inf => true
  | .inf, _ => false
  | .fin a, .fin b => if a ≤ b then true else false

/-- Model of x.powf(2.0): the exact square.  On every input class powf with
exponent 2.0 agrees with squaring: finite x gives x*x, (+-inf)^2 = +inf,
NaN^2 = NaN. -/
def SF.powf2 (x : SF) : SF := x.mul x

/-- Deterministic rational approximation of the square root, used only to
model f32 sqrt.  The rationals have no exact square root; f32 sqrt is the
correctly rounded real square root, a deterministic function of its argument
with sqrt 0 = 0, and those are the only properties of sqrt the claims about
the distance function use.  This approximation (floor square root of
num * den, over den) is such a deterministic function with ratSqrt 0 = 0. -/
def ratSqrt (q : ℚ) : ℚ := (Nat.sqrt (q.num.toNat * q.den) : ℚ) / (q.den : ℚ)

/-- Model of f32 sqrt: NaN on negative or NaN input, +inf on +inf,
deterministic non-negative approximation on finite non-negative input
(exact at 0). -/
def SF.sqrtSF : SF → SF
  | .nan => .nan
  | .inf => .inf
  | .ninf => .nan
  | .fin q => if q < 0 then .nan else .fin (ratSqrt q)

-- COMPONENTS (src/main.rs lines 7-44)

/-- Mass component. -/
structure Mass where
  mass : SF
deriving DecidableEq

/-- Acceleration component. -/
structure Acceleration where
  x : SF
  y : SF
deriving DecidableEq

/-- Velocity component. -/
structure Velocity where
  x : SF
  y : SF
deriving DecidableEq

/-- Position component. -/
structure Position where
  x : SF
  y : SF
deriving DecidableEq

/-- WorldBounds resource. -/
structure WorldBounds where
  x : SF
  y : SF
deriving DecidableEq

/-- Time resource: beginning and last are instants (rational timestamps),
total and delta are the f64 second counts produced by as_secs_f64, always
finite and non-negative, hence plain rationals. -/
structure Time where
  beginning : ℚ
  last : ℚ
  total : ℚ
  delta : ℚ
deriving DecidableEq

/-- One body entity with all its components; the entity identifier is the
index of the body in the world's list. -/
structure BodyEnt where
  mass : Mass
  pos : Position
  vel : Velocity
  accel : Acceleration
deriving DecidableEq

/-- The world: the clock resource, the bounds resource, and the bodies in
join order. -/
structure World where
  time : Time
  bounds : WorldBounds
  bodies : List BodyEnt
deriving DecidableEq

-- FREE FUNCTIONS (src/main.rs lines 60-76)

/-- The epsilon of the overlap test (0.05 in the source). -/
def epsilon : ℚ := 1 / 20

/-- Overlap test from the source: both per-axis absolute differences are
at most epsilon. -/
def overlapping (pos_one pos_two : Position) : Bool :=
  ((pos_one.x.sub pos_two.x).abs.le (SF.fin epsilon)) &&
    ((pos_one.y.sub pos_two.y).abs.le (SF.fin epsilon))

/-- Euclidean distance from the source: sqrt of the sum of the squares of
the per-axis differences. -/
def distance (pos_one pos_two : Position) : SF :=
  (((pos_one.x.sub pos_two.x).powf2).add ((pos_one.y.sub pos_two.y).powf2)).sqrtSF

-- SYSTEMS

/-- The gravitational constant 6.67430e-11 of the source, as an exact
rational. -/
def Gc : SF := SF.fin (66743 / 1000000000000000)

/-- Body of the inner loop of ApplyGravity::run (src/main.rs lines 96-114):
given the outer entity's mass, position and index, fold one inner-join
element (index paired with body) into the accumulating acceleration.
Skips the self pair and overlapping pairs; otherwise divides the per-axis
pseudo-force by the squared absolute per-axis difference and accumulates
force / m_one. -/
def gravStep (mass_one : Mass) (pos_one : Position) (ent_one : Nat)
    (acc : Acceleration) (jb : Nat × BodyEnt) : Acceleration :=
  if ent_one = jb.1 then acc
  else if overlapping pos_one jb.2.pos then acc
  else
    let dist_x := (pos_one.x.sub jb.2.pos.x).abs
    let dist_y := (pos_one.y.sub jb.2.pos.y).abs
    let force_x := (Gc.mul (mass_one.mass.mul jb.2.mass.mass)).div dist_x.powf2
    let force_y := (Gc.mul (mass_one.mass.mul jb.2.mass.mass)).div dist_y.powf2
    { x := acc.x.add (force_x.div mass_one.mass),
      y := acc.y.add (force_y.div mass_one.mass) }

/-- Acceleration computed for one outer entity by ApplyGravity::run: reset
to zero, then the inner join over all indexed bodies. -/
def gravAccel (bodies : List BodyEnt) (mass_one : Mass) (pos_one : Position)
    (ent_one : Nat) : Acceleration :=
  bodies.enum.foldl (gravStep mass_one pos_one ent_one)
    { x := SF.fin 0, y := SF.fin 0 }

/-- ApplyGravity::run (src/main.rs lines 88-116): every body's acceleration
is overwritten with the accumulated per-pair pseudo-forces; masses and
positions are read only. -/
def ApplyGravity.run (w : World) : World :=
  { w with bodies := w.bodies.enum.map (fun ib =>
      { ib.2 with accel := gravAccel w.bodies ib.2.mass ib.2.pos ib.1 }) }

/-- UpdateTime::run (src/main.rs lines 49-58): reads the current instant,
stores delta = duration since last, total = duration since beginning, and
the current instant as the new last.  duration_since saturates at zero when
the other instant is later, hence the max with 0. -/
def UpdateTime.run (current : ℚ) (time : Time) : Time :=
  { time with
      delta := max (current - time.last) 0,
      total := max (current - time.beginning) 0,
      last := current }

/-- ApplyAccelerations::run (src/main.rs lines 127-132): for every body,
velocity += acceleration * delta (delta cast from f64 to f32; the cast is
the identity in the exact model). -/
def ApplyAccelerations.run (w : World) : World :=
  { w with bodies := w.bodies.map (fun b =>
      { b with vel :=
          { x := b.vel.x.add (b.accel.x.mul (SF.fin w.time.delta)),
            y := b.vel.y.add (b.accel.y.mul (SF.fin w.time.delta)) } }) }

/-- ApplyVelocities::run (src/main.rs lines 143-148): for every body,
position += velocity * delta. -/
def ApplyVelocities.run (w : World) : World :=
  { w with bodies := w.bodies.map (fun b =>
      { b with pos :=
          { x := b.pos.x.add (b.vel.x.mul (SF.fin w.time.delta)),
            y := b.pos.y.add (b.vel.y.mul (SF.fin w.time.delta)) } }) }

/-- One tick of the scheduler: the declared dependency graph (update_time ->
apply_gravity -> update_vels -> update_positions, src/main.rs lines 216-227)
linearises the four stages into this sequential composition. -/
def tick (current : ℚ) (w : World) : World :=
  ApplyVelocities.run (ApplyAccelerations.run (ApplyGravity.run
    { w with time := UpdateTime.run current w.time }))

-- CONCRETE SCENARIO WORLDS

/-- A body at rest with the given mass and coordinates, zero velocity and
zero acceleration. -/
def restBody (m px py : ℚ) : BodyEnt :=
  { mass := { mass := SF.fin m },
    pos := { x := SF.fin px, y := SF.fin py },
    vel := { x := SF.fin 0, y := SF.fin 0 },
    accel := { x := SF.fin 0, y := SF.fin 0 } }

/-- The two-body scenario of the spec: masses 1 and 1 at (0,0) and (5,0),
zero velocities, tick delta 1. -/
def twoBodyWorld : World :=
  { time := { beginning := 0, last := 0, total := 0, delta := 1 },
    bounds := { x := SF.fin 10, y := SF.fin 10 },
    bodies := [restBody 1 0 0, restBody 1 5 0] }

/-- Two bodies of mass zero at (0,0) and (5,0). -/
def zeroMassWorld : World :=
  { time := { beginning := 0, last := 0, total := 0, delta := 1 },
    bounds := { x := SF.fin 10, y := SF.fin 10 },
    bodies := [restBody 0 0 0, restBody 0 5 0] }

-- BASIC LEMMAS ABOUT THE FLOAT MODEL

/-- Adding the finite zero is the identity on every float value. -/
lemma SF.add_fin_zero (a : SF) : a.add (SF.fin 0) = a := by
  cases a <;> simp [SF.add]

/-- NaN on the left absorbs addition. -/
lemma SF.nan_add (a : SF) : SF.nan.add a = SF.nan := by
  cases a <;> rfl

/-- NaN on the right absorbs addition. -/
lemma SF.add_nan (a : SF) : a.add SF.nan = SF.nan := by
  cases a <;> rfl

/-- Absolute value of a difference does not depend on the order of the
operands, IEEE special values included. -/
lemma SF.abs_sub_swap (a b : SF) : (a.sub b).abs = (b.sub a).abs := by
  cases a <;> cases b <;>
    simp only [SF.sub, SF.add, SF.neg, SF.abs, ← sub_eq_add_neg]
  exact congrArg SF.fin (abs_sub_comm _ _)

/-- The squared difference does not depend on the order of the operands,
IEEE special values included. -/
lemma SF.powf2_sub_swap (a b : SF) : (a.sub b).powf2 = (b.sub a).powf2 := by
  cases a <;> cases b <;> simp [SF.sub, SF.add, SF.neg, SF.powf2, SF.mul]
  ring

-- C6

/-- C6: the overlap predicate is symmetric: for every pair of positions a
and b, overlapping(a, b) equals overlapping(b, a). -/
theorem overlapping_symmetric (a b : Position) : overlapping a b = overlapping b a := by
  unfold overlapping
  rw [SF.abs_sub_swap a.x b.x, SF.abs_sub_swap a.y b.y]

-- C8

/-- C8 counterexample: at a position with a non-finite coordinate the
distance of a position to itself is NaN, not 0, because the per-axis
difference inf - inf is NaN; so the claim fails as stated over all
position pairs. -/
theorem distance_self_nonfinite_counterexample :
    distance { x := SF.inf, y := SF.fin 0 } { x := SF.inf, y := SF.fin 0 } = SF.nan ∧
      SF.nan ≠ SF.fin 0 := by
  constructor
  · norm_num [distance, SF.sub, SF.add, SF.neg, SF.powf2, SF.mul, SF.sqrtSF]
  · intro h
    exact SF.noConfusion h

/-- C8 amended: the distance function is symmetric for every pair of
positions (special values included), and distance(a, a) = 0 holds for every
position whose coordinates are finite. -/
theorem distance_symm_and_zero_on_finite :
    (∀ a b : Position, distance a b = distance b a) ∧
      ∀ qx qy : ℚ, distance { x := SF.fin qx, y := SF.fin qy }
        { x := SF.fin qx, y := SF.fin qy } = SF.fin 0 := by
  constructor
  · intro a b
    unfold distance
    rw [SF.powf2_sub_swap a.x b.x, SF.powf2_sub_swap a.y b.y]
  · intro qx qy
    norm_num [distance, SF.sub, SF.add, SF.neg, SF.powf2, SF.mul, SF.sqrtSF, ratSqrt]

-- GRAVITY STEP LEMMAS

/-- A skipped pair (self pair or overlapping pair) leaves the accumulating
acceleration unchanged. -/
lemma gravStep_skip (m1 : Mass) (p1 : Position) (i : Nat) (acc : Acceleration)
    (jb : Nat × BodyEnt) (h : i = jb.1 ∨ overlapping p1 jb.2.pos = true) :
    gravStep m1 p1 i acc jb = acc := by
  unfold gravStep
  rcases h with h | h <;> simp [h]

/-- A non-skipped pair adds the per-axis contributions to the accumulating
acceleration. -/
lemma gravStep_no_skip (m1 : Mass) (p1 : Position) (i : Nat) (acc : Acceleration)
    (jb : Nat × BodyEnt) (h1 : ¬ i = jb.1) (h2 : ¬ overlapping p1 jb.2.pos = true) :
    gravStep m1 p1 i acc jb =
      { x := acc.x.add
          (((Gc.mul (m1.mass.mul jb.2.mass.mass)).div ((p1.x.sub jb.2.pos.x).abs.powf2)).div m1.mass),
        y := acc.y.add
          (((Gc.mul (m1.mass.mul jb.2.mass.mass)).div ((p1.y.sub jb.2.pos.y).abs.powf2)).div m1.mass) } := by
  unfold gravStep
  simp [h1, h2]

/-- Once the accumulating acceleration is NaN on both axes it stays NaN:
every later step either skips or adds to NaN. -/
lemma gravStep_nan_acc (m1 : Mass) (p1 : Position) (i : Nat) (jb : Nat × BodyEnt) :
    gravStep m1 p1 i { x := SF.nan, y := SF.nan } jb = { x := SF.nan, y := SF.nan } := by
  by_cases h1 : i = jb.1
  · exact gravStep_skip _ _ _ _ _ (Or.inl h1)
  by_cases h2 : overlapping p1 jb.2.pos = true
  · exact gravStep_skip _ _ _ _ _ (Or.inr h2)
  rw [gravStep_no_skip _ _ _ _ _ h1 h2]
  simp [SF.nan_add]

/-- Folding the gravity step from a NaN acceleration gives NaN. -/
lemma gravFold_nan_acc (l : List (Nat × BodyEnt)) (m1 : Mass) (p1 : Position) (i : Nat) :
    l.foldl (gravStep m1 p1 i) { x := SF.nan, y := SF.nan } = { x := SF.nan, y := SF.nan } := by
  induction l with
  | nil => rfl
  | cons hd tl ih => rw [List.foldl_cons, gravStep_nan_acc]; exact ih

/-- Dividing the finite zero by anything and then by the finite zero gives
NaN: either the first division is 0/0 = NaN already, or it yields a finite
zero and the second division is 0/0 = NaN. -/
lemma SF.zero_div_div_zero (d : SF) : (((SF.fin 0).div d).div (SF.fin 0)) = SF.nan := by
  cases d <;> (simp [SF.div]; try (split_ifs with h <;> simp_all [SF.div]))

/-- With both masses zero a non-skipped pair drives both acceleration
components to NaN: the pseudo-force is 0 (or 0/0 = NaN when the axis
distance is zero or NaN), and dividing it by the zero mass of the receiving
body is 0/0 = NaN in every case. -/
lemma gravStep_zero_mass (m1 : Mass) (p1 : Position) (i : Nat) (acc : Acceleration)
    (jb : Nat × BodyEnt) (hm1 : m1.mass = SF.fin 0) (hm2 : jb.2.mass.mass = SF.fin 0)
    (h1 : ¬ i = jb.1) (h2 : ¬ overlapping p1 jb.2.pos = true) :
    gravStep m1 p1 i acc jb = { x := SF.nan, y := SF.nan } := by
  rw [gravStep_no_skip _ _ _ _ _ h1 h2, hm1, hm2]
  have hz : Gc.mul ((SF.fin 0).mul (SF.fin 0)) = SF.fin 0 := by
    norm_num [Gc, SF.mul]
  rw [hz, SF.zero_div_div_zero, SF.zero_div_div_zero]
  simp [SF.add_nan]

-- C1

/-- C1 counterexample: in the two-body scenario (masses 1 and 1 at (0,0)
and (5,0), zero velocities, delta 1), after one gravity run the x component
of the acceleration of the body at x = 5 (index 1) is the strictly positive
finite value G/25, not a strictly negative one: the force law uses absolute
per-axis differences, so both bodies are pushed in the positive x
direction. -/
theorem twoBody_accel_x_counterexample :
    ((ApplyGravity.run twoBodyWorld).bodies.map (fun b => b.accel.x)) =
        [SF.fin (66743 / 25000000000000000), SF.fin (66743 / 25000000000000000)] ∧
      (0 : ℚ) < 66743 / 25000000000000000 := by
  constructor
  · norm_num [ApplyGravity.run, gravAccel, gravStep, overlapping, SF.le, SF.abs, SF.sub,
      SF.add, SF.neg, SF.mul, SF.div, SF.powf2, Gc, epsilon, twoBodyWorld, restBody,
      List.enum, List.enumFrom]
  · norm_num

/-- C1 amended: in the two-body scenario both bodies end the gravity run
with acceleration (G/25, +inf): the x component has the claimed magnitude
G/25 = (6.67430e-11)/25 but is strictly positive for BOTH bodies (the body
at x = 5 is pushed away from, not toward, the other body, because the
pseudo-force uses absolute per-axis differences), and the y component is
+inf, produced by the division by dy^2 = 0, so the acceleration is not
purely along the x axis either. -/
theorem twoBody_gravity_amended :
    ((ApplyGravity.run twoBodyWorld).bodies.map (fun b => b.accel)) =
        [{ x := SF.fin (66743 / 25000000000000000), y := SF.inf },
         { x := SF.fin (66743 / 25000000000000000), y := SF.inf }] ∧
      (66743 / 25000000000000000 : ℚ) = (66743 / 1000000000000000) / 25 ∧
      (0 : ℚ) < 66743 / 25000000000000000 := by
  refine ⟨?_, by norm_num, by norm_num⟩
  norm_num [ApplyGravity.run, gravAccel, gravStep, overlapping, SF.le, SF.abs, SF.sub,
    SF.add, SF.neg, SF.mul, SF.div, SF.powf2, Gc, epsilon, twoBodyWorld, restBody,
    List.enum, List.enumFrom]

-- C2

/-- C2 counterexample: with every mass zero (two bodies of mass 0 at (0,0)
and (5,0)) one gravity run leaves every acceleration component NaN, not 0:
the pseudo-force 0 is divided by the receiving body's zero mass, a 0/0. -/
theorem zero_mass_accel_counterexample :
    ((ApplyGravity.run zeroMassWorld).bodies.map (fun b => b.accel)) =
        [{ x := SF.nan, y := SF.nan }, { x := SF.nan, y := SF.nan }] ∧
      SF.nan ≠ SF.fin 0 := by
  constructor
  · norm_num [ApplyGravity.run, gravAccel, gravStep, overlapping, SF.le, SF.abs, SF.sub,
      SF.add, SF.neg, SF.mul, SF.div, SF.powf2, Gc, epsilon, zeroMassWorld, restBody,
      List.enum, List.enumFrom]
  · intro h
    exact SF.noConfusion h

-- C3

/-- C3 counterexample: in the two-body scenario the pair has dy = 0 and is
not overlapping, and the gravity stage stores the non-finite value +inf in
acceleration.y of both bodies: the division by dy^2 = 0 does silently
propagate a non-finite value into the stored acceleration, rather than
contributing zero. -/
theorem gravity_y_nonfinite_counterexample :
    ((ApplyGravity.run twoBodyWorld).bodies.map (fun b => b.accel.y)) = [SF.inf, SF.inf] ∧
      SF.inf ≠ SF.fin 0 := by
  constructor
  · norm_num [ApplyGravity.run, gravAccel, gravStep, overlapping, SF.le, SF.abs, SF.sub,
      SF.add, SF.neg, SF.mul, SF.div, SF.powf2, Gc, epsilon, twoBodyWorld, restBody,
      List.enum, List.enumFrom]
  · intro h
    exact SF.noConfusion h

-- C2 (general form)

/-- With the outer mass zero and every inner mass zero, the gravity fold
yields exactly (0,0) when every pair is skipped and (NaN, NaN) as soon as
one pair is not skipped. -/
lemma gravFold_zero_mass (l : List (Nat × BodyEnt)) (m1 : Mass) (p1 : Position) (i : Nat)
    (hm1 : m1.mass = SF.fin 0) (hl : ∀ jb ∈ l, jb.2.mass.mass = SF.fin 0) :
    l.foldl (gravStep m1 p1 i) { x := SF.fin 0, y := SF.fin 0 } =
      if l.all (fun jb => decide (i = jb.1) || overlapping p1 jb.2.pos) then
        { x := SF.fin 0, y := SF.fin 0 }
      else { x := SF.nan, y := SF.nan } := by
  induction l with
  | nil => rfl
  | cons hd tl ih =>
    rw [List.foldl_cons, List.all_cons]
    by_cases hskip : i = hd.1 ∨ overlapping p1 hd.2.pos = true
    · rw [gravStep_skip _ _ _ _ _ hskip, ih (fun jb h => hl jb (List.mem_cons_of_mem _ h))]
      have hc : (decide (i = hd.1) || overlapping p1 hd.2.pos) = true := by
        rcases hskip with h | h <;> simp [h]
      rw [hc, Bool.true_and]
    · push_neg at hskip
      rw [gravStep_zero_mass _ _ _ _ _ hm1 (hl hd (List.mem_cons_self _ _)) hskip.1 hskip.2,
        gravFold_nan_acc]
      have hc : (decide (i = hd.1) || overlapping p1 hd.2.pos) = false := by
        simp [hskip.1, hskip.2]
      rw [hc, Bool.false_and]
      simp

/-- The accelerations written by one gravity run, as a function of the
input world. -/
lemma gravRun_accels (w : World) :
    (ApplyGravity.run w).bodies.map (fun b => b.accel) =
      w.bodies.enum.map (fun ib => gravAccel w.bodies ib.2.mass ib.2.pos ib.1) := by
  simp only [ApplyGravity.run, List.map_map]
  rfl

/-- The gravity stage never reads the acceleration store it overwrites:
replacing every stored acceleration before the run does not change the
accelerations it computes. -/
lemma gravAccel_ignores_accel (bodies : List BodyEnt) (acc2 : BodyEnt → Acceleration)
    (m1 : Mass) (p1 : Position) (i : Nat) :
    gravAccel (bodies.map (fun b => { b with accel := acc2 b })) m1 p1 i =
      gravAccel bodies m1 p1 i := by
  unfold gravAccel
  rw [List.enum_map, List.foldl_map]
  rfl

/-- C2 amended: one gravity run overwrites every acceleration with a value
independent of the accelerations held before the run; but with every mass
zero the result is not (0,0) in general: an entity whose pairs are all
skipped (self or overlapping) ends at exactly (0,0), while an entity with
at least one distinct non-overlapping partner ends with NaN on both axes,
because the zero pseudo-force is divided by the entity's zero mass
(0/0 = NaN). -/
theorem gravity_zero_mass_amended (w : World)
    (hm : ∀ b ∈ w.bodies, b.mass.mass = SF.fin 0) (acc2 : BodyEnt → Acceleration) :
    ((ApplyGravity.run
          { w with bodies := w.bodies.map (fun b => { b with accel := acc2 b }) }).bodies.map
            (fun b => b.accel) =
        (ApplyGravity.run w).bodies.map (fun b => b.accel)) ∧
      (ApplyGravity.run w).bodies.map (fun b => b.accel) =
        w.bodies.enum.map (fun ib =>
          if w.bodies.enum.all
              (fun jb => decide (ib.1 = jb.1) || overlapping ib.2.pos jb.2.pos) then
            { x := SF.fin 0, y := SF.fin 0 }
          else { x := SF.nan, y := SF.nan }) := by
  constructor
  · rw [gravRun_accels, gravRun_accels]
    show ((w.bodies.map (fun b => { b with accel := acc2 b })).enum.map _) = _
    rw [List.enum_map, List.map_map]
    apply List.map_congr_left
    intro ib _
    exact gravAccel_ignores_accel w.bodies acc2 ib.2.mass ib.2.pos ib.1
  · rw [gravRun_accels]
    apply List.map_congr_left
    intro ib hib
    unfold gravAccel
    exact gravFold_zero_mass w.bodies.enum ib.2.mass ib.2.pos ib.1
      (hm ib.2 (List.snd_mem_of_mem_enum hib))
      (fun jb h => hm jb.2 (List.snd_mem_of_mem_enum h))

/-- Witness for the amended C2 at the concrete zero-mass world, with the
prior accelerations overwritten by an arbitrary nonzero value. -/
theorem gravity_zero_mass_amended_witness :
    (∀ b ∈ zeroMassWorld.bodies, b.mass.mass = SF.fin 0) ∧
      (((ApplyGravity.run
            { zeroMassWorld with bodies := (zeroMassWorld.bodies.map
                (fun b => { b with accel := (fun _ => { x := SF.fin 7, y := SF.fin 7 }) b })) }).bodies.map
              (fun b => b.accel) =
          (ApplyGravity.run zeroMassWorld).bodies.map (fun b => b.accel)) ∧
        (ApplyGravity.run zeroMassWorld).bodies.map (fun b => b.accel) =
          zeroMassWorld.bodies.enum.map (fun ib =>
            if zeroMassWorld.bodies.enum.all
                (fun jb => decide (ib.1 = jb.1) || overlapping ib.2.pos jb.2.pos) then
              { x := SF.fin 0, y := SF.fin 0 }
            else { x := SF.nan, y := SF.nan })) :=
  ⟨by simp [zeroMassWorld, restBody],
    gravity_zero_mass_amended zeroMassWorld (by simp [zeroMassWorld, restBody])
      (fun _ => { x := SF.fin 7, y := SF.fin 7 })⟩

-- C3 (general form)

/-- C3 amended: for a pair of distinct, non-overlapping entities whose y
coordinates are exactly equal (dy = 0) and whose masses are strictly
positive finite values, the gravity step adds +inf, a non-finite value, to
the receiving body's acceleration.y: the division by dy^2 = 0 silently
propagates a non-finite value into the stored acceleration (with a zero
mass product it would propagate NaN instead); it does not contribute
zero. -/
theorem gravity_dy_zero_adds_inf (m1 m2 y : ℚ) (hm1 : 0 < m1) (hm2 : 0 < m2)
    (m1v : Mass) (p1 : Position) (i : Nat) (acc : Acceleration) (jb : Nat × BodyEnt)
    (hm1v : m1v.mass = SF.fin m1) (hjm : jb.2.mass.mass = SF.fin m2)
    (hp1 : p1.y = SF.fin y) (hp2 : jb.2.pos.y = SF.fin y)
    (hi : ¬ i = jb.1) (hov : ¬ overlapping p1 jb.2.pos = true) :
    (gravStep m1v p1 i acc jb).y = acc.y.add SF.inf := by
  rw [gravStep_no_skip _ _ _ _ _ hi hov]
  show acc.y.add _ = acc.y.add SF.inf
  rw [hm1v, hjm, hp1, hp2]
  have hP : 0 < (66743 / 1000000000000000 : ℚ) * (m1 * m2) := by positivity
  simp [SF.sub, SF.add, SF.neg, SF.abs, SF.powf2, SF.mul, SF.div, Gc, hP, hP.ne', hm1.le]

/-- Witness for the amended C3 at the two-body scenario: entity 0 at (0,0),
partner entity 1 of mass 1 at (5,0), both masses 1, dy = 0. -/
theorem gravity_dy_zero_adds_inf_witness :
    (0 : ℚ) < 1 ∧
      (¬ (0 : Nat) = (1, restBody 1 5 0).1) ∧
      (¬ overlapping { x := SF.fin 0, y := SF.fin 0 } (1, restBody 1 5 0).2.pos = true) ∧
      (gravStep { mass := SF.fin 1 } { x := SF.fin 0, y := SF.fin 0 } 0
          { x := SF.fin 0, y := SF.fin 0 } (1, restBody 1 5 0)).y =
        (Acceleration.mk (SF.fin 0) (SF.fin 0)).y.add SF.inf := by
  have hov : ¬ overlapping { x := SF.fin 0, y := SF.fin 0 } (1, restBody 1 5 0).2.pos = true := by
    norm_num [overlapping, restBody, SF.sub, SF.add, SF.neg, SF.abs, SF.le, epsilon]
  exact ⟨by norm_num, by norm_num, hov,
    gravity_dy_zero_adds_inf 1 1 0 (by norm_num) (by norm_num)
      { mass := SF.fin 1 } { x := SF.fin 0, y := SF.fin 0 } 0
      { x := SF.fin 0, y := SF.fin 0 } (1, restBody 1 5 0)
      rfl rfl rfl rfl (by norm_num) hov⟩

-- C4

/-- Modelled from the spec (section 4.4), for the refinement claim: the
per-pair pseudo-force contribution to the acceleration of entity i from
entity j, F_x = G*m_i*m_j / dx^2 and F_y = G*m_i*m_j / dy^2 with dx, dy the
absolute per-axis coordinate differences, each accumulated as F / m_i. -/
def specPairAccel (m_i m_j : SF) (p_i p_j : Position) : Acceleration :=
  { x := ((Gc.mul (m_i.mul m_j)).div ((p_i.x.sub p_j.x).abs.powf2)).div m_i,
    y := ((Gc.mul (m_i.mul m_j)).div ((p_i.y.sub p_j.y).abs.powf2)).div m_i }

/-- Modelled from the spec (section 4.4), for the refinement claim: the
acceleration of entity i after one gravity run is the sum, starting from
zero, of the contributions of every other entity j, in entity order,
skipping j = i and overlapping pairs. -/
def specGravAccel (bodies : List BodyEnt) (i : Nat) (m_i : SF) (p_i : Position) : Acceleration :=
  ((bodies.enum.filter
        (fun jb => !(decide (i = jb.1)) && !(overlapping p_i jb.2.pos))).map
      (fun jb => specPairAccel m_i jb.2.mass.mass p_i jb.2.pos)).foldl
    (fun acc c => { x := acc.x.add c.x, y := acc.y.add c.y })
    { x := SF.fin 0, y := SF.fin 0 }

/-- The source's skip-and-accumulate loop equals the spec's
filter-map-sum, for every list of indexed bodies and every starting
accumulator. -/
lemma gravFold_eq_specFold (l : List (Nat × BodyEnt)) (m1 : Mass) (p1 : Position) (i : Nat)
    (acc : Acceleration) :
    l.foldl (gravStep m1 p1 i) acc =
      ((l.filter (fun jb => !(decide (i = jb.1)) && !(overlapping p1 jb.2.pos))).map
          (fun jb => specPairAccel m1.mass jb.2.mass.mass p1 jb.2.pos)).foldl
        (fun a c => { x := a.x.add c.x, y := a.y.add c.y }) acc := by
  induction l generalizing acc with
  | nil => rfl
  | cons hd tl ih =>
    rw [List.foldl_cons, List.filter_cons]
    by_cases hskip : i = hd.1 ∨ overlapping p1 hd.2.pos = true
    · rw [gravStep_skip _ _ _ _ _ hskip]
      have hc : (!(decide (i = hd.1)) && !(overlapping p1 hd.2.pos)) = false := by
        rcases hskip with h | h <;> simp [h]
      rw [hc]
      exact ih acc
    · push_neg at hskip
      have hc : (!(decide (i = hd.1)) && !(overlapping p1 hd.2.pos)) = true := by
        simp [hskip.1, hskip.2]
      rw [hc, if_pos rfl, List.map_cons, List.foldl_cons,
        gravStep_no_skip _ _ _ _ _ hskip.1 hskip.2]
      exact ih _

/-- C4: one gravity run gives every entity i exactly the acceleration the
spec describes: reset to zero, then for every other entity j (skipping
j = i and overlapping pairs, which contribute nothing) add
G*m_i*m_j / dx^2 / m_i to the x component and G*m_i*m_j / dy^2 / m_i to the
y component, with dx, dy the absolute per-axis differences and
G = 6.67430e-11. -/
theorem gravity_matches_spec (w : World) :
    (ApplyGravity.run w).bodies.map (fun b => b.accel) =
      w.bodies.enum.map (fun ib => specGravAccel w.bodies ib.1 ib.2.mass.mass ib.2.pos) := by
  rw [gravRun_accels]
  apply List.map_congr_left
  intro ib _
  unfold gravAccel specGravAccel
  exact gravFold_eq_specFold w.bodies.enum ib.2.mass ib.2.pos ib.1 _

-- C5

/-- C5: for every entity, zero acceleration leaves its velocity unchanged
by one velocity-integration run, and zero velocity leaves its position
unchanged by one position-integration run, for every value of the clock
delta (every finite value, which is all duration_since can produce). -/
theorem integration_identities (w : World) (i : Nat) (b : BodyEnt)
    (hb : w.bodies[i]? = some b) :
    (b.accel = { x := SF.fin 0, y := SF.fin 0 } →
        (ApplyAccelerations.run w).bodies[i]?.map (fun c => c.vel) = some b.vel) ∧
      (b.vel = { x := SF.fin 0, y := SF.fin 0 } →
        (ApplyVelocities.run w).bodies[i]?.map (fun c => c.pos) = some b.pos) := by
  constructor
  · intro ha
    simp [ApplyAccelerations.run, hb, ha, SF.mul, SF.add_fin_zero]
  · intro hv
    simp [ApplyVelocities.run, hb, hv, SF.mul, SF.add_fin_zero]

/-- Witness for C5 at the two-body scenario's first body, which has zero
acceleration and zero velocity. -/
theorem integration_identities_witness :
    (twoBodyWorld.bodies[0]? = some (restBody 1 0 0)) ∧
      ((restBody 1 0 0).accel = { x := SF.fin 0, y := SF.fin 0 }) ∧
      ((ApplyAccelerations.run twoBodyWorld).bodies[0]?.map (fun c => c.vel) =
        some (restBody 1 0 0).vel) ∧
      ((restBody 1 0 0).vel = { x := SF.fin 0, y := SF.fin 0 }) ∧
      ((ApplyVelocities.run twoBodyWorld).bodies[0]?.map (fun c => c.pos) =
        some (restBody 1 0 0).pos) :=
  ⟨rfl, rfl, (integration_identities twoBodyWorld 0 (restBody 1 0 0) rfl).1 rfl, rfl,
    (integration_identities twoBodyWorld 0 (restBody 1 0 0) rfl).2 rfl⟩

-- C7

/-- C7: one clock-update run with current instant at or after both the last
tick and the beginning stores exactly delta = current - last and
total = current - beginning, replaces last with current, and leaves
beginning untouched; and within a whole tick the clock resource's final
value is exactly that single clock-update write (no other stage touches
it). -/
theorem clock_update_exact (t : Time) (current : ℚ)
    (h1 : t.last ≤ current) (h2 : t.beginning ≤ current) :
    (UpdateTime.run current t =
        { beginning := t.beginning, last := current,
          total := current - t.beginning, delta := current - t.last }) ∧
      ∀ w : World, (tick current w).time = UpdateTime.run current w.time := by
  refine ⟨?_, fun w => rfl⟩
  have e1 : max (current - t.last) 0 = current - t.last := max_eq_left (sub_nonneg.mpr h1)
  have e2 : max (current - t.beginning) 0 = current - t.beginning :=
    max_eq_left (sub_nonneg.mpr h2)
  simp [UpdateTime.run, e1, e2]

/-- Witness for C7 at a concrete clock state: beginning 0, last 1,
current instant 3. -/
theorem clock_update_exact_witness :
    ((1 : ℚ) ≤ 3) ∧ ((0 : ℚ) ≤ 3) ∧
      ((UpdateTime.run 3 { beginning := 0, last := 1, total := 0, delta := 0 } =
          { beginning := 0, last := 3, total := 3 - 0, delta := 3 - 1 }) ∧
        ∀ w : World, (tick 3 w).time = UpdateTime.run 3 w.time) :=
  ⟨by norm_num, by norm_num,
    clock_update_exact { beginning := 0, last := 1, total := 0, delta := 0 } 3
      (by norm_num) (by norm_num)⟩

-- C9

/-- Strictly positive finite float (the masses of the simulation, drawn
from the range 1.0..5.0, all satisfy it). -/
def SF.isPosFin : SF → Bool
  | .fin q => decide (0 < q)
  | _ => false

/-- A value the gravity accumulation can legitimately produce: a
non-negative finite value, +inf, or NaN; in particular not a strictly
negative finite value and not -inf. -/
def SF.gravOk : SF → Bool
  | .fin q => decide (0 ≤ q)
  | .inf => true
  | .ninf => false
  | .nan => true

/-- The set of gravity-producible values is closed under addition. -/
lemma SF.gravOk_add {a b : SF} (ha : a.gravOk = true) (hb : b.gravOk = true) :
    (a.add b).gravOk = true := by
  cases a <;> cases b <;> simp_all [SF.gravOk, SF.add]
  linarith

/-- An absolute value is never a negative finite value and never -inf. -/
lemma SF.gravOk_abs (a : SF) : a.abs.gravOk = true := by
  cases a <;> simp [SF.gravOk, SF.abs, abs_nonneg]

/-- The per-pair contribution G*m1*m2 / d^2 / m1 is gravity-producible
whenever both masses are strictly positive finite values and d is itself
gravity-producible (which every absolute axis distance is). -/
lemma gravContrib_gravOk (m1 m2 : ℚ) (hm1 : 0 < m1) (hm2 : 0 < m2) (d : SF)
    (hd : d.gravOk = true) :
    (((Gc.mul ((SF.fin m1).mul (SF.fin m2))).div d.powf2).div (SF.fin m1)).gravOk = true := by
  have hP : 0 < (66743 / 1000000000000000 : ℚ) * (m1 * m2) := by positivity
  have hnum : Gc.mul ((SF.fin m1).mul (SF.fin m2)) =
      SF.fin ((66743 / 1000000000000000) * (m1 * m2)) := by
    simp [Gc, SF.mul]
  rw [hnum]
  cases d with
  | fin q =>
    simp only [SF.gravOk, decide_eq_true_eq] at hd
    by_cases hq : q = 0
    · subst hq
      simp [SF.powf2, SF.mul, SF.div, SF.gravOk, hP.ne', hP, hm1.le]
    · have hqpos : 0 < q := lt_of_le_of_ne hd (Ne.symm hq)
      have hq2 : 0 < q * q := mul_pos hqpos hqpos
      simp only [SF.powf2, SF.mul, SF.div, SF.gravOk, hq2.ne', if_false, hm1.ne',
        decide_eq_true_eq]
      positivity
  | inf => simp [SF.powf2, SF.mul, SF.div, SF.gravOk, hm1.ne']
  | ninf => simp [SF.gravOk] at hd
  | nan => simp [SF.powf2, SF.mul, SF.div, SF.gravOk]

/-- One gravity step keeps both components gravity-producible, provided
both masses involved are strictly positive finite values. -/
lemma gravStep_gravOk (m1 : Mass) (p1 : Position) (i : Nat) (acc : Acceleration)
    (jb : Nat × BodyEnt) (hm1 : m1.mass.isPosFin = true)
    (hm2 : jb.2.mass.mass.isPosFin = true)
    (hx : acc.x.gravOk = true) (hy : acc.y.gravOk = true) :
    (gravStep m1 p1 i acc jb).x.gravOk = true ∧
      (gravStep m1 p1 i acc jb).y.gravOk = true := by
  by_cases h1 : i = jb.1
  · rw [gravStep_skip _ _ _ _ _ (Or.inl h1)]; exact ⟨hx, hy⟩
  by_cases h2 : overlapping p1 jb.2.pos = true
  · rw [gravStep_skip _ _ _ _ _ (Or.inr h2)]; exact ⟨hx, hy⟩
  rw [gravStep_no_skip _ _ _ _ _ h1 h2]
  obtain ⟨q1, hq1, hq1pos⟩ : ∃ q, m1.mass = SF.fin q ∧ 0 < q := by
    cases hm : m1.mass <;> simp_all [SF.isPosFin]
  obtain ⟨q2, hq2, hq2pos⟩ : ∃ q, jb.2.mass.mass = SF.fin q ∧ 0 < q := by
    cases hm : jb.2.mass.mass <;> simp_all [SF.isPosFin]
  rw [hq1, hq2]
  exact ⟨SF.gravOk_add hx (gravContrib_gravOk q1 q2 hq1pos hq2pos _ (SF.gravOk_abs _)),
    SF.gravOk_add hy (gravContrib_gravOk q1 q2 hq1pos hq2pos _ (SF.gravOk_abs _))⟩

/-- Folding gravity steps from a gravity-producible accumulator stays
gravity-producible when every mass in the list is strictly positive. -/
lemma gravFold_gravOk (l : List (Nat × BodyEnt)) (m1 : Mass) (p1 : Position) (i : Nat)
    (acc : Acceleration) (hm1 : m1.mass.isPosFin = true)
    (hl : ∀ jb ∈ l, jb.2.mass.mass.isPosFin = true)
    (hx : acc.x.gravOk = true) (hy : acc.y.gravOk = true) :
    (l.foldl (gravStep m1 p1 i) acc).x.gravOk = true ∧
      (l.foldl (gravStep m1 p1 i) acc).y.gravOk = true := by
  induction l generalizing acc with
  | nil => exact ⟨hx, hy⟩
  | cons hd tl ih =>
    rw [List.foldl_cons]
    have hstep := gravStep_gravOk m1 p1 i acc hd hm1 (hl hd (List.mem_cons_self _ _)) hx hy
    exact ih _ (fun jb h => hl jb (List.mem_cons_of_mem _ h)) hstep.1 hstep.2

/-- C9: when every entity's mass is a strictly positive finite value, one
gravity run leaves every entity's acceleration components non-negative or
non-finite: each per-pair contribution uses absolute per-axis differences,
so it is a non-negative finite value, +inf, or NaN, never negative,
regardless of which side of the entity the other body lies on. -/
theorem gravity_accel_never_negative (w : World)
    (hm : ∀ b ∈ w.bodies, b.mass.mass.isPosFin = true) :
    ∀ b ∈ (ApplyGravity.run w).bodies, b.accel.x.gravOk = true ∧ b.accel.y.gravOk = true := by
  intro b hb
  simp only [ApplyGravity.run, List.mem_map] at hb
  obtain ⟨ib, hib, rfl⟩ := hb
  show (gravAccel w.bodies ib.2.mass ib.2.pos ib.1).x.gravOk = true ∧
    (gravAccel w.bodies ib.2.mass ib.2.pos ib.1).y.gravOk = true
  unfold gravAccel
  exact gravFold_gravOk w.bodies.enum ib.2.mass ib.2.pos ib.1 _
    (hm ib.2 (List.snd_mem_of_mem_enum hib))
    (fun jb h => hm jb.2 (List.snd_mem_of_mem_enum h))
    (by simp [SF.gravOk]) (by simp [SF.gravOk])

/-- Witness for C9 at the two-body scenario, whose masses are both the
strictly positive finite value 1. -/
theorem gravity_accel_never_negative_witness :
    (∀ b ∈ twoBodyWorld.bodies, b.mass.mass.isPosFin = true) ∧
      ∀ b ∈ (ApplyGravity.run twoBodyWorld).bodies,
        b.accel.x.gravOk = true ∧ b.accel.y.gravOk = true :=
  ⟨by norm_num [twoBodyWorld, restBody, SF.isPosFin],
    gravity_accel_never_negative twoBodyWorld
      (by norm_num [twoBodyWorld, restBody, SF.isPosFin])⟩

-- C10

/-- The gravity stage leaves every Mass component untouched. -/
lemma gravRun_mass (w : World) :
    (ApplyGravity.run w).bodies.map (fun b => b.mass) = w.bodies.map (fun b => b.mass) := by
  show (w.bodies.enum.map _).map _ = _
  rw [List.map_map]
  have h : ((fun b => b.mass) ∘ fun ib : Nat × BodyEnt =>
      { ib.2 with accel := gravAccel w.bodies ib.2.mass ib.2.pos ib.1 }) =
      (fun b => b.mass) ∘ Prod.snd := rfl
  rw [h, ← List.map_map, List.enum_map_snd]

/-- The velocity-integration stage leaves every Mass component untouched. -/
lemma accelsRun_mass (w : World) :
    (ApplyAccelerations.run w).bodies.map (fun b => b.mass) =
      w.bodies.map (fun b => b.mass) := by
  show (w.bodies.map _).map _ = _
  rw [List.map_map]
  rfl

/-- The position-integration stage leaves every Mass component untouched. -/
lemma velsRun_mass (w : World) :
    (ApplyVelocities.run w).bodies.map (fun b => b.mass) =
      w.bodies.map (fun b => b.mass) := by
  show (w.bodies.map _).map _ = _
  rw [List.map_map]
  rfl

/-- C10: a whole tick modifies neither any entity's Mass component nor the
WorldBounds resource, and creates or destroys no entity (so the Body tag
set, which has no payload, is preserved as well): after startup only the
clock, accelerations, velocities and positions are ever written. -/
theorem masses_and_bounds_preserved (current : ℚ) (w : World) :
    (tick current w).bodies.map (fun b => b.mass) = w.bodies.map (fun b => b.mass) ∧
      (tick current w).bounds = w.bounds ∧
      (tick current w).bodies.length = w.bodies.length := by
  refine ⟨?_, rfl, ?_⟩
  · show (ApplyVelocities.run _).bodies.map _ = _
    rw [velsRun_mass, accelsRun_mass, gravRun_mass]
  · simp [tick, ApplyGravity.run, ApplyAccelerations.run, ApplyVelocities.run]
